import Mathlib

/-!
Verification of the dnshole list-acquisition-and-reconciliation pipeline.

This file shallowly embeds the parts of `main.go` that the verified
properties speak about.  Go strings are modelled as `List Char` (Go's
byte-lexicographic order on UTF-8 strings agrees with codepoint-lexicographic
order, which is the order on `List Char`).  Effectful steps (file opens,
HTTP requests, renames) are modelled by threading an explicit environment
that records each external outcome; `log.Fatal` exits are modelled as a
distinguished error value.
-/

namespace Dnshole

/-- Go strings, modelled as lists of characters. -/
abbrev GoStr := List Char

/-- Model of Go `unicode.IsSpace`: the Latin-1 whitespace characters plus the
Unicode `White_Space` code points.  Used by `strings.Fields`. -/
def goIsSpace (c : Char) : Bool :=
  c == '\t' || c == '\n' || c.toNat == 11 || c.toNat == 12 || c == '\r' || c == ' ' ||
  c.toNat == 0x85 || c.toNat == 0xA0 || c.toNat == 0x1680 ||
  (0x2000 ≤ c.toNat && c.toNat ≤ 0x200A) ||
  c.toNat == 0x2028 || c.toNat == 0x2029 || c.toNat == 0x202F ||
  c.toNat == 0x205F || c.toNat == 0x3000

/-- The character class of `\s` in Go's RE2 regexp engine: `[\t\n\f\r ]`.
The source compiles `blankRE = regexp.MustCompile createdFrom backslash-s-star`
anchored at both ends. -/
def blankClassChar (c : Char) : Bool :=
  c == '\t' || c == '\n' || c.toNat == 12 || c == '\r' || c == ' '

/-- Model of `blankRE.MatchString line` for the anchored pattern matching a
(possibly empty) run of `\s` characters: every character of the line is in
the `\s` class. -/
def blankREMatch (s : GoStr) : Bool :=
  s.all blankClassChar

/-- Accumulator-style helper for `strings.Fields`: `acc` holds the characters
of the field currently being read, in reverse. -/
def fieldsAux : GoStr → GoStr → List GoStr
  | [], acc => if acc.isEmpty then [] else [acc.reverse]
  | c :: cs, acc =>
    if goIsSpace c then
      if acc.isEmpty then fieldsAux cs [] else acc.reverse :: fieldsAux cs []
    else fieldsAux cs (c :: acc)

/-- Model of Go `strings.Fields`: split around runs of whitespace, dropping
empty fields. -/
def goFields (s : GoStr) : List GoStr :=
  fieldsAux s []

/-- Model of Go `strings.HasPrefix s p`. -/
def goStartsWith (s p : GoStr) : Bool :=
  decide (s.take p.length = p)

/-- Model of Go `strings.Contains s sub`: some suffix of `s` starts with
`sub`. -/
def goContains : GoStr → GoStr → Bool
  | [], sub => goStartsWith [] sub
  | c :: cs, sub => goStartsWith (c :: cs) sub || goContains cs sub

/-- Model of `line[:strings.Index(line, "#")]` in `parseDomains`
(`main.go` lines 92-95): everything before the first `#`, or the whole line
when there is no `#`. -/
def stripComment (line : GoStr) : GoStr :=
  line.takeWhile (fun c => c ≠ '#')

/-- Model of `parseDomains` (`main.go` lines 91-102): strip the comment,
split into fields, and return the fields from `fieldIndex` on, or `nil` when
`fieldIndex` is out of range. -/
def parseDomains (line : GoStr) (fieldIndex : Nat) : List GoStr :=
  let fields := goFields (stripComment line)
  if fields.length ≤ fieldIndex then [] else fields.drop fieldIndex

/-- The constant `dnsholeMarkerLine` (`main.go` line 43). -/
def dnsholeMarkerLine : GoStr :=
  "# ==== dnshole ====".toList

/-- The roles `allow` and `block` (`main.go` lines 45-48). -/
inductive Role where
  | allow : Role
  | block : Role
deriving DecidableEq

/-- Model of the `listDesc` struct (`main.go` lines 81-85).  `fieldIndex` is
a `Nat` because every stored value is non-negative: `appendListDesc` rejects
negative values and `main` stores the literal `2`. -/
structure ListDesc where
  url : GoStr
  fieldIndex : Nat
  allowBlock : Role
deriving DecidableEq

/-- Model of the per-source scanner loop of `getBlocklistDomains`
(`main.go` lines 146-158): for an allow source, stop at the first line
having the marker text as a line prefix; collect `parseDomains` of each
scanned line. -/
def collectDomains (wb : Role) (fieldIndex : Nat) : List GoStr → List GoStr
  | [] => []
  | line :: rest =>
    if wb = Role.allow ∧ goStartsWith line dnsholeMarkerLine then []
    else parseDomains line fieldIndex ++ collectDomains wb fieldIndex rest

/-- Model of the reconciliation tail of `getBlocklistDomains`
(`main.go` lines 172-195).  The source builds an allow set, inserts every
block domain not in the allow set into a second set, enumerates that set's
keys and sorts them with `sort.Strings`; the result is the unique sorted
duplicate-free enumeration of the difference set, which is what
deduplicating, filtering and sorting produces. -/
def reconcile (allowDomainsList blockDomainsList : List (List GoStr)) : List GoStr :=
  List.insertionSort (fun a b => a ≤ b)
    ((blockDomainsList.flatten.filter
      (fun d => decide (d ∉ allowDomainsList.flatten))).dedup)

/-- Outcome of one source-fetching task of `getBlocklistDomains`
(`main.go` lines 123-170): `fatal` models `log.Fatal`, `skipped` models the
warning-and-return path, `fetched` carries the collected domains. -/
inductive FetchOutcome where
  | fatal : FetchOutcome
  | skipped : FetchOutcome
  | fetched : List GoStr → FetchOutcome
deriving DecidableEq

/-- External outcomes for one source: `localContent` is the line list a
successful `os.Open`+scan yields (`none` models an open failure), and
`httpResponse` is the status and body of `client.Get` (`none` models a
transport error). -/
structure FetchEnv where
  localContent : Option (List GoStr)
  httpResponse : Option (Nat × List GoStr)

/-- Model of one iteration of the closure passed to `callConcurrently` in
`getBlocklistDomains` (`main.go` lines 123-170): a location without the
scheme separator is opened as a local file (open failure is `log.Fatal`);
otherwise a transport error or a non-200 status produces a warning and the
task returns early, contributing nothing. -/
def fetchSource (d : ListDesc) (env : FetchEnv) : FetchOutcome :=
  if goContains d.url "://".toList = false then
    match env.localContent with
    | none => FetchOutcome.fatal
    | some lines => FetchOutcome.fetched (collectDomains d.allowBlock d.fieldIndex lines)
  else
    match env.httpResponse with
    | none => FetchOutcome.skipped
    | some (status, body) =>
      if status ≠ 200 then FetchOutcome.skipped
      else FetchOutcome.fetched (collectDomains d.allowBlock d.fieldIndex body)

/-- Model of collecting the per-source results of `getBlocklistDomains` into
`allowDomainsList` and `blockDomainsList` (`main.go` lines 120-170): a fatal
task aborts the run (`none`), a skipped task appends to neither list, and a
fetched task appends its domains to the list of its role.  The source
appends in completion order; this model uses descriptor order, which is
harmless because `reconcile` is invariant under permutation of either list. -/
def gatherResults : List (ListDesc × FetchEnv) → Option (List (List GoStr) × List (List GoStr))
  | [] => some ([], [])
  | (d, e) :: rest =>
    match fetchSource d e, gatherResults rest with
    | FetchOutcome.fatal, _ => none
    | _, none => none
    | FetchOutcome.skipped, some r => some r
    | FetchOutcome.fetched ds, some (als, bls) =>
      match d.allowBlock with
      | Role.allow => some (ds :: als, bls)
      | Role.block => some (als, ds :: bls)

/-- The implicitly appended allow descriptor for the hosts file itself:
`listDescs = append(listDescs, listDesc{hostsFilename, 2, allow})`
(`main.go` line 408). -/
def implicitHostsDesc (hostsFilename : GoStr) : ListDesc :=
  ⟨hostsFilename, 2, Role.allow⟩

/-- Model of the fetch-and-reconcile phase of `main` (`main.go` lines
405-410): gather every source's result and reconcile; `none` models a fatal
abort inside a task. -/
def dnsholeRun (sources : List (ListDesc × FetchEnv)) : Option (List GoStr) :=
  match gatherResults sources with
  | none => none
  | some (als, bls) => some (reconcile als bls)

/-- The mutable configuration read by `readConfigFile`: the accumulated
`listDescs` slice and the `concurrency` variable (`main.go` lines 51, 88). -/
structure ConfigState where
  listDescs : List ListDesc
  concurrency : Int
deriving DecidableEq

/-- Digit test used by the `strconv.Atoi` model. -/
def isAsciiDigit (c : Char) : Bool :=
  48 ≤ c.toNat && c.toNat ≤ 57

/-- Digit-run evaluation for the `strconv.Atoi` model. -/
def digitsToNat (ds : GoStr) : Nat :=
  ds.foldl (fun acc c => 10 * acc + (c.toNat - 48)) 0

/-- Shared tail of the `strconv.Atoi` model: a non-empty all-digit run after
the optional sign. -/
def goAtoiCore (ds : GoStr) (neg : Bool) : Option Int :=
  if ds.isEmpty then none
  else if ds.all isAsciiDigit then
    some (if neg then -(digitsToNat ds : Int) else (digitsToNat ds : Int))
  else none

/-- Model of Go `strconv.Atoi`: an optional sign followed by at least one
decimal digit; anything else is an error.  (The 64-bit overflow error is not
modelled; no verified property involves values of that size.) -/
def goAtoi : GoStr → Option Int
  | [] => none
  | c :: cs =>
    if c = '-' then goAtoiCore cs true
    else if c = '+' then goAtoiCore cs false
    else goAtoiCore (c :: cs) false

/-- Model of `appendListDesc` (`main.go` lines 277-292): exactly three
fields, a numeric second field, decremented by one and rejected when the
result is negative; otherwise the descriptor is appended.  `Except.error`
models `log.Fatalf`. -/
def appendListDesc (allowBlock : Role) (fields : List GoStr) (st : ConfigState) :
    Except String ConfigState :=
  if fields.length ≠ 3 then Except.error "wrong number of fields"
  else
    match goAtoi (fields.getD 1 []) with
    | none => Except.error "non-numeric field index"
    | some n =>
      if n - 1 < 0 then Except.error "field index must be greater than 0"
      else Except.ok
        { st with listDescs := st.listDescs ++ [⟨fields.getD 2 [], (n - 1).toNat, allowBlock⟩] }

/-- ASCII case folding of one character; `strings.ToLower` restricted to
ASCII, which is exact for every directive keyword the switch compares
against. -/
def asciiLowerChar (c : Char) : Char :=
  if 65 ≤ c.toNat ∧ c.toNat ≤ 90 then Char.ofNat (c.toNat + 32) else c

/-- ASCII model of `strings.ToLower`. -/
def asciiLower (s : GoStr) : GoStr :=
  s.map asciiLowerChar

/-- Model of `processConfigLine` (`main.go` lines 294-324): skip `#`-started
and blank lines, then dispatch on the lower-cased first field; the only
recognised directives are `allowlist`, `blocklist` and `concurrency`, and
anything else is the fatal unknown-directive error.  A line whose fields are
empty yet which is not blank under `blankRE` (possible only with exotic
whitespace) indexes `fields[0]` out of range in the source; that is modelled
as an error value. -/
def processConfigLine (line : GoStr) (st : ConfigState) : Except String ConfigState :=
  if goStartsWith line ['#'] then Except.ok st
  else if blankREMatch line then Except.ok st
  else
    match goFields line with
    | [] => Except.error "panic: index out of range"
    | f0 :: rest =>
      if asciiLower f0 = "allowlist".toList then appendListDesc Role.allow (f0 :: rest) st
      else if asciiLower f0 = "blocklist".toList then appendListDesc Role.block (f0 :: rest) st
      else if asciiLower f0 = "concurrency".toList then
        if (f0 :: rest).length ≠ 2 then Except.error "wrong number of fields"
        else
          match goAtoi ((f0 :: rest).getD 1 []) with
          | none => Except.error "non-numeric concurrency"
          | some n => Except.ok { st with concurrency := n }
      else Except.error "unknown directive"

/-- First header line written after the preserved content
(`main.go` line 256). -/
def markerHeaderLine : GoStr :=
  dnsholeMarkerLine ++ " Do not edit this line or following lines.".toList

/-- Second header line written after the preserved content
(`main.go` line 257). -/
def autoGenLine : GoStr :=
  "# They are automatically generated by dnshole.".toList

/-- The lines of the input hosts file copied verbatim by
`createNewHostsFile` (`main.go` lines 238-246): everything before the first
line starting with the marker text. -/
def keptInputLines (inputLines : List GoStr) : List GoStr :=
  inputLines.takeWhile (fun l => !(goStartsWith l dnsholeMarkerLine))

/-- The `lastLine` variable after the copy loop of `createNewHostsFile`:
the last copied line, or the empty string when nothing was copied. -/
def lastCopiedLine (inputLines : List GoStr) : GoStr :=
  (keptInputLines inputLines).getLastD []

/-- Content model of `createNewHostsFile` (`main.go` lines 236-264) as the
list of output lines: the copied input lines, one inserted blank line when
the last copied line does not match `blankRE`, the marker header and
generated comments (`timeStr` models the formatted `time.Now()`), a blank
line, and one `0.0.0.0` line per domain. -/
def newHostsLines (inputLines domains : List GoStr) (timeStr : GoStr) : List GoStr :=
  keptInputLines inputLines ++
  (if blankREMatch (lastCopiedLine inputLines) then [] else [[]]) ++
  [markerHeaderLine, autoGenLine, "# Generated".toList ++ timeStr, []] ++
  domains.map (fun d => "0.0.0.0 ".toList ++ d)

/-- External outcomes of the write phase: whether `os.Open(hostsFilename)`,
`os.Create(outputFilename)`, `newHost.Close()` and `os.Rename` succeed. -/
structure WriteEnv where
  openHostsOk : Bool
  createOk : Bool
  closeOk : Bool
  renameOk : Bool
deriving DecidableEq

/-- Whether `createNewHostsFile` runs to completion instead of exiting in
one of its `log.Fatal` branches (`main.go` lines 218-269): the input open,
the output create and the final close must all succeed. -/
def createNewHostsFileOk (e : WriteEnv) : Bool :=
  e.openHostsOk && e.createOk && e.closeOk

/-- Result of the write phase of `main`: whether a temporary sibling path
was used, whether `os.Rename` was reached, and whether the run exited
fatally. -/
structure WritePhaseResult where
  tempUsed : Bool
  renameAttempted : Bool
  fatal : Bool
deriving DecidableEq

/-- Model of the write phase of `main` (`main.go` lines 412-419).  When the
output resolves to the same file as the input (`same = true`), the content
goes to the temporary sibling path `dnshole_tmp_hosts` and `os.Rename` is
reached only if `createNewHostsFile` did not exit fatally first.  The source
discards the value returned by `os.Rename` (line 418), so the result cannot
depend on `renameOk`. -/
def mainWritePhase (same : Bool) (e : WriteEnv) : WritePhaseResult :=
  if same then
    if createNewHostsFileOk e then ⟨true, true, false⟩
    else ⟨true, false, true⟩
  else
    if createNewHostsFileOk e then ⟨false, false, false⟩
    else ⟨false, false, true⟩

/-! ### Helper lemmas -/

/-- Every character of every field produced by `fieldsAux s acc` comes from
`s` or from the pending accumulator `acc`. -/
lemma mem_of_mem_fieldsAux :
    ∀ (s acc d : GoStr), d ∈ fieldsAux s acc → ∀ c ∈ d, c ∈ s ∨ c ∈ acc := by
  intro s
  induction s with
  | nil =>
    intro acc d hd c hc
    unfold fieldsAux at hd
    split at hd
    · simp at hd
    · simp only [List.mem_singleton] at hd
      subst hd
      exact Or.inr (List.mem_reverse.mp hc)
  | cons ch cs ih =>
    intro acc d hd c hc
    unfold fieldsAux at hd
    split at hd
    · split at hd
      · rcases ih [] d hd c hc with h | h
        · exact Or.inl (List.mem_cons_of_mem ch h)
        · simp at h
      · rcases List.mem_cons.mp hd with h | h
        · subst h
          exact Or.inr (List.mem_reverse.mp hc)
        · rcases ih [] d h c hc with h2 | h2
          · exact Or.inl (List.mem_cons_of_mem ch h2)
          · simp at h2
    · rcases ih (ch :: acc) d hd c hc with h | h
      · exact Or.inl (List.mem_cons_of_mem ch h)
      · rcases List.mem_cons.mp h with h2 | h2
        · subst h2
          exact Or.inl (List.mem_cons_self _ _)
        · exact Or.inr h2

/-- Every character of every field of `goFields s` is a character of `s`. -/
lemma mem_of_mem_goFields {s d : GoStr} (hd : d ∈ goFields s) {c : Char} (hc : c ∈ d) :
    c ∈ s := by
  rcases mem_of_mem_fieldsAux s [] d hd c hc with h | h
  · exact h
  · simp at h

/-- No character of `stripComment line` is `#`. -/
lemma ne_hash_of_mem_stripComment {line : GoStr} {c : Char} (hc : c ∈ stripComment line) :
    c ≠ '#' := by
  have := List.mem_takeWhile_imp hc
  simpa using this

/-! ### Claim theorems -/

/-- Claim C5: for every input line and every field offset, `parseDomains`
never returns a token containing the comment character (tokens come only
from before the first `#`), returns the empty list whenever the offset is at
least the number of fields remaining after comment stripping, and otherwise
returns exactly the fields from the offset to the end of the line. -/
theorem parseDomains_spec (line : GoStr) (i : Nat) :
    (∀ d ∈ parseDomains line i, '#' ∉ d) ∧
    ((goFields (stripComment line)).length ≤ i → parseDomains line i = []) ∧
    (i < (goFields (stripComment line)).length →
      parseDomains line i = (goFields (stripComment line)).drop i) := by
  refine ⟨?_, ?_, ?_⟩
  · intro d hd hc
    simp only [parseDomains] at hd
    split at hd
    · simp at hd
    · have hmem : d ∈ goFields (stripComment line) := List.mem_of_mem_drop hd
      exact ne_hash_of_mem_stripComment (mem_of_mem_goFields hmem hc) rfl
  · intro h
    simp only [parseDomains]
    rw [if_pos h]
  · intro h
    simp only [parseDomains]
    rw [if_neg (by omega)]

/-- Witness for C5 at concrete inputs: the offset-out-of-range branch and
the in-range branch, evaluated on `0.0.0.0 a b # c`. -/
theorem parseDomains_spec_witness :
    (goFields (stripComment "0.0.0.0 a b # c".toList)).length ≤ 5 ∧
    parseDomains "0.0.0.0 a b # c".toList 5 = [] ∧
    parseDomains "0.0.0.0 a b # c".toList 1 = ["a".toList, "b".toList] :=
  ⟨by decide, (parseDomains_spec "0.0.0.0 a b # c".toList 5).2.1 (by decide),
    ((parseDomains_spec "0.0.0.0 a b # c".toList 1).2.2 (by decide)).trans (by decide)⟩

/-- `reconcile` produces a `≤`-sorted list. -/
lemma reconcile_sorted (A B : List (List GoStr)) :
    (reconcile A B).Sorted (fun a b : GoStr => a ≤ b) :=
  List.sorted_insertionSort _ _

/-- `reconcile` produces a duplicate-free list. -/
lemma reconcile_nodup (A B : List (List GoStr)) :
    (reconcile A B).Nodup :=
  (List.perm_insertionSort _ _).nodup_iff.mpr (List.nodup_dedup _)

/-- Membership in the reconciled list is membership in the union of the
block sources minus the union of the allow sources. -/
lemma mem_reconcile (A B : List (List GoStr)) (d : GoStr) :
    d ∈ reconcile A B ↔ d ∈ B.flatten ∧ d ∉ A.flatten := by
  simp only [reconcile, List.mem_insertionSort, List.mem_dedup, List.mem_filter,
    decide_eq_true_eq, List.mem_flatten]

/-- Claim C2: the reconciled block list is a strictly ascending
lexicographic sequence (hence duplicate-free), and a domain belongs to it
exactly when it is in the union of the Block-role results and not in the
union of the Allow-role results. -/
theorem reconcile_spec (A B : List (List GoStr)) :
    (reconcile A B).Sorted (fun a b : GoStr => a < b) ∧
    (reconcile A B).Nodup ∧
    ∀ d, d ∈ reconcile A B ↔ d ∈ B.flatten ∧ d ∉ A.flatten :=
  ⟨List.Sorted.lt_of_le (reconcile_sorted A B) (reconcile_nodup A B),
    reconcile_nodup A B, fun d => mem_reconcile A B d⟩

/-- Claim C8: `reconcile` is invariant under permutation of the per-source
results, so the output does not depend on fetch completion order. -/
theorem reconcile_perm_invariant (A A' B B' : List (List GoStr))
    (hA : List.Perm A A') (hB : List.Perm B B') :
    reconcile A B = reconcile A' B' := by
  refine List.eq_of_perm_of_sorted ?_ (reconcile_sorted A B) (reconcile_sorted A' B')
  refine (List.perm_ext_iff_of_nodup (reconcile_nodup A B) (reconcile_nodup A' B')).2 ?_
  intro d
  rw [mem_reconcile, mem_reconcile, hA.flatten.mem_iff, hB.flatten.mem_iff]

/-- Witness for C8: swapping two block sources leaves the output unchanged. -/
theorem reconcile_perm_invariant_witness :
    List.Perm [[['b']], [['c'], ['a']]] [[['c'], ['a']], [['b']]] ∧
    reconcile [[['x']]] [[['b']], [['c'], ['a']]] =
      reconcile [[['x']]] [[['c'], ['a']], [['b']]] :=
  ⟨List.Perm.swap _ _ _,
    reconcile_perm_invariant [[['x']]] [[['x']]] _ _ (List.Perm.refl _) (List.Perm.swap _ _ _)⟩

/-- A list that starts with the marker text passes the `goStartsWith`
test. -/
lemma goStartsWith_append (p s : GoStr) : goStartsWith (p ++ s) p = true := by
  simp [goStartsWith, List.take_left]

/-- Claim C10: every Allow-role source stops contributing lines at the first
line whose text begins with the marker (by prefix, not exact equality — any
extension of the marker line also stops the scan), while Block-role sources
are never truncated at such a line. -/
theorem marker_truncation_spec (i : Nat) (lines : List GoStr) :
    collectDomains Role.allow i lines =
      (lines.takeWhile (fun l => !(goStartsWith l dnsholeMarkerLine))).flatMap
        (fun l => parseDomains l i) ∧
    collectDomains Role.block i lines = lines.flatMap (fun l => parseDomains l i) ∧
    ∀ s rest, collectDomains Role.allow i ((dnsholeMarkerLine ++ s) :: rest) = [] := by
  refine ⟨?_, ?_, ?_⟩
  · induction lines with
    | nil => simp [collectDomains]
    | cons l ls ih =>
      by_cases h : goStartsWith l dnsholeMarkerLine = true
      · simp [collectDomains, h]
      · simp only [Bool.not_eq_true] at h
        simp [collectDomains, h, ih]
  · induction lines with
    | nil => simp [collectDomains]
    | cons l ls ih => simp [collectDomains, ih]
  · intro s rest
    simp [collectDomains, goStartsWith_append]

/-- Claim C7: the rewritten hosts file begins with the input lines that
precede the marker line, unchanged, followed by exactly the optional blank
line (present if and only if the last copied line is not blank) and then the
generated section — nothing else touches the preserved region. -/
theorem rewrite_preserved_lines (inputLines domains : List GoStr) (timeStr : GoStr) :
    (newHostsLines inputLines domains timeStr).take (keptInputLines inputLines).length =
      keptInputLines inputLines ∧
    (newHostsLines inputLines domains timeStr).drop (keptInputLines inputLines).length =
      (if blankREMatch (lastCopiedLine inputLines) then [] else [[]]) ++
      [markerHeaderLine, autoGenLine, "# Generated".toList ++ timeStr, []] ++
      domains.map (fun d => "0.0.0.0 ".toList ++ d) ∧
    (((newHostsLines inputLines domains timeStr).drop
        (keptInputLines inputLines).length).head? = some [] ↔
      blankREMatch (lastCopiedLine inputLines) = false) := by
  have htake : (newHostsLines inputLines domains timeStr).take
      (keptInputLines inputLines).length = keptInputLines inputLines := by
    simp only [newHostsLines, List.append_assoc]
    exact List.take_left _ _
  have hdrop : (newHostsLines inputLines domains timeStr).drop
      (keptInputLines inputLines).length =
      (if blankREMatch (lastCopiedLine inputLines) then [] else [[]]) ++
      [markerHeaderLine, autoGenLine, "# Generated".toList ++ timeStr, []] ++
      domains.map (fun d => "0.0.0.0 ".toList ++ d) := by
    simp only [newHostsLines, List.append_assoc]
    rw [List.drop_left]
  refine ⟨htake, hdrop, ?_⟩
  rw [hdrop]
  by_cases hb : blankREMatch (lastCopiedLine inputLines) = true
  · have : markerHeaderLine ≠ ([] : GoStr) := by decide
    simp [hb, markerHeaderLine, dnsholeMarkerLine]
  · simp only [Bool.not_eq_true] at hb
    simp [hb]

/-- Claim C1 evaluated on the failing input: the hosts file lists
`0.0.0.0 tracker.io` above its marker and a Block-role source contains
`tracker.io`.  The implicit Allow descriptor appended by `main` carries
field index `2`, which `parseDomains` applies as a 0-based slice start, so
the two-field hosts line yields no domain at all; had the domain column
(0-based index 1) been used, `tracker.io` would have been extracted.  The run
therefore still emits `tracker.io`, contradicting the claimed exclusion. -/
theorem hosts_allow_descriptor_offset :
    parseDomains "0.0.0.0 tracker.io".toList (implicitHostsDesc "hosts".toList).fieldIndex
      = [] ∧
    parseDomains "0.0.0.0 tracker.io".toList 1 = ["tracker.io".toList] ∧
    dnsholeRun
      [(⟨"ads.txt".toList, 0, Role.block⟩, ⟨some ["tracker.io".toList], none⟩),
        (implicitHostsDesc "hosts".toList,
          ⟨some ["0.0.0.0 tracker.io".toList, dnsholeMarkerLine], none⟩)] =
      some ["tracker.io".toList] := by
  decide

/-- Counterexample for C3: with the output resolving to the input file, a
run in which the write and close succeed but the rename fails is not fatal —
`main` discards the value returned by `os.Rename`, so the run completes
silently. -/
theorem rename_failure_not_fatal :
    (mainWritePhase true ⟨true, true, true, false⟩).renameAttempted = true ∧
    (mainWritePhase true ⟨true, true, true, false⟩).fatal = false :=
  ⟨rfl, rfl⟩

/-- Claim C3 as amended: when the output target is the same underlying file
as the input, the content goes through the temporary sibling path and the
rename is reached exactly when the write and close succeeded; a failure of
the rename itself, however, is silently ignored — the run is fatal only when
the write phase fails, never because of the rename. -/
theorem same_file_write_behavior (e : WriteEnv) :
    (mainWritePhase true e).tempUsed = true ∧
    ((mainWritePhase true e).renameAttempted = true ↔ createNewHostsFileOk e = true) ∧
    (mainWritePhase true e).fatal = !(createNewHostsFileOk e) := by
  cases hok : createNewHostsFileOk e <;> simp [mainWritePhase, hok]

/-- Claim C6: a source location without a scheme separator whose open fails
is fatal; a URL source with a transport error or a non-200 status is skipped
— the task emits a warning and returns early, so the source contributes
nothing to the gathered results while the run continues, whereas a fatal
task aborts the whole run. -/
theorem fetch_failure_modes (d : ListDesc) (env : FetchEnv) :
    (goContains d.url "://".toList = false → env.localContent = none →
      fetchSource d env = FetchOutcome.fatal) ∧
    (goContains d.url "://".toList = true → env.httpResponse = none →
      fetchSource d env = FetchOutcome.skipped) ∧
    (∀ status body, goContains d.url "://".toList = true →
      env.httpResponse = some (status, body) → status ≠ 200 →
      fetchSource d env = FetchOutcome.skipped) ∧
    (fetchSource d env = FetchOutcome.skipped →
      ∀ rest, gatherResults ((d, env) :: rest) = gatherResults rest) ∧
    (fetchSource d env = FetchOutcome.fatal →
      ∀ rest, gatherResults ((d, env) :: rest) = none) := by
  refine ⟨?_, ?_, ?_, ?_, ?_⟩
  · intro h1 h2
    unfold fetchSource
    rw [h1]
    simp [h2]
  · intro h1 h2
    unfold fetchSource
    rw [h1]
    simp [h2]
  · intro status body h1 h2 h3
    unfold fetchSource
    rw [h1]
    simp [h2, h3]
  · intro h rest
    cases hr : gatherResults rest <;> simp [gatherResults, h, hr]
  · intro h rest
    simp [gatherResults, h]

/-- Witness for C6 at concrete inputs: a local path that fails to open, a
URL with a transport error, and a URL answered with status 404. -/
theorem fetch_failure_modes_witness :
    fetchSource ⟨"local.txt".toList, 0, Role.block⟩ ⟨none, none⟩ = FetchOutcome.fatal ∧
    fetchSource ⟨"http://x/a".toList, 0, Role.block⟩ ⟨none, none⟩ = FetchOutcome.skipped ∧
    fetchSource ⟨"http://x/a".toList, 0, Role.block⟩ ⟨none, some (404, ["ads.com".toList])⟩ =
      FetchOutcome.skipped ∧
    gatherResults [(⟨"http://x/a".toList, 0, Role.block⟩, ⟨none, none⟩)] = some ([], []) :=
  ⟨(fetch_failure_modes ⟨"local.txt".toList, 0, Role.block⟩ ⟨none, none⟩).1 (by decide) rfl,
    (fetch_failure_modes ⟨"http://x/a".toList, 0, Role.block⟩ ⟨none, none⟩).2.1 (by decide) rfl,
    (fetch_failure_modes ⟨"http://x/a".toList, 0, Role.block⟩
      ⟨none, some (404, ["ads.com".toList])⟩).2.2.1 404 ["ads.com".toList]
        (by decide) rfl (by decide),
    ((fetch_failure_modes ⟨"http://x/a".toList, 0, Role.block⟩ ⟨none, none⟩).2.2.2.1
      (by decide) []).trans rfl⟩

/-- Counterexample for C4: configuration lines setting the concurrency
limit to zero or to a negative value are accepted without any error —
`processConfigLine` stores the value as-is, so a non-positive limit is not a
configuration error at startup. -/
theorem concurrency_nonpositive_accepted :
    processConfigLine "concurrency 0".toList ⟨[], 1⟩ = Except.ok ⟨[], 0⟩ ∧
    processConfigLine "concurrency -3".toList ⟨[], 1⟩ = Except.ok ⟨[], -3⟩ :=
  ⟨rfl, rfl⟩

/-- Claim C4 as amended: a `concurrency` line with a single numeric argument
is accepted and its value stored verbatim, with no positivity check —
whatever the sign of the parsed value. -/
theorem concurrency_directive_stores_value (st : ConfigState) (s num : GoStr) (n : Int)
    (h1 : goStartsWith s ['#'] = false) (h2 : blankREMatch s = false)
    (hf : goFields s = ["concurrency".toList, num]) (hn : goAtoi num = some n) :
    processConfigLine s st = Except.ok ⟨st.listDescs, n⟩ := by
  have ha : ¬ (asciiLower "concurrency".toList = "allowlist".toList) := by decide
  have hb : ¬ (asciiLower "concurrency".toList = "blocklist".toList) := by decide
  have hc : asciiLower "concurrency".toList = "concurrency".toList := by decide
  unfold processConfigLine
  rw [h1, h2, hf]
  simp only [Bool.false_eq_true, if_false, List.getD_cons_succ, List.getD_cons_zero,
    List.length_cons, List.length_nil]
  rw [if_neg ha, if_neg hb, if_pos hc, if_neg (by norm_num), hn]

/-- Witness for C4 at the concrete line `concurrency 0`. -/
theorem concurrency_directive_stores_value_witness :
    processConfigLine "concurrency 0".toList ⟨[], 7⟩ = Except.ok ⟨[], 0⟩ :=
  concurrency_directive_stores_value ⟨[], 7⟩ "concurrency 0".toList "0".toList 0
    (by decide) (by decide) (by decide) (by decide)

/-- Counterexample for C9: the legacy directives `whitelist` and
`blacklist` are rejected as unknown directives by `processConfigLine` — only
`allowlist` and `blocklist` are recognised. -/
theorem legacy_directives_rejected :
    processConfigLine "whitelist 2 list.txt".toList ⟨[], 1⟩ =
      Except.error "unknown directive" ∧
    processConfigLine "blacklist 2 list.txt".toList ⟨[], 1⟩ =
      Except.error "unknown directive" :=
  ⟨rfl, rfl⟩

/-- Claim C9 as amended: a configuration line whose first field is,
case-insensitively, `allowlist` or `blocklist`, with exactly two further
fields of which the first parses to an integer at least 1, registers a
source descriptor whose stored offset is the written offset minus one; the
legacy `whitelist`/`blacklist` spellings are not among the accepted
directives. -/
theorem list_directive_registers_desc (st : ConfigState) (s kw off loc : GoStr)
    (n : Int) (role : Role)
    (h1 : goStartsWith s ['#'] = false) (h2 : blankREMatch s = false)
    (hf : goFields s = [kw, off, loc])
    (hkw : (asciiLower kw = "allowlist".toList ∧ role = Role.allow) ∨
      (asciiLower kw = "blocklist".toList ∧ role = Role.block))
    (hn : goAtoi off = some n) (hge : 1 ≤ n) :
    processConfigLine s st =
      Except.ok ⟨st.listDescs ++ [⟨loc, (n - 1).toNat, role⟩], st.concurrency⟩ := by
  have hlt : ¬ (n - 1 < 0) := by omega
  have hbla : ¬ (("blocklist".toList : GoStr) = "allowlist".toList) := by decide
  unfold processConfigLine
  rw [h1, h2, hf]
  simp only [Bool.false_eq_true, if_false]
  rcases hkw with ⟨hk, hrole⟩ | ⟨hk, hrole⟩ <;> subst hrole <;> rw [hk]
  · rw [if_pos rfl]
    simp only [appendListDesc, List.getD_cons_succ, List.getD_cons_zero,
      List.length_cons, List.length_nil]
    rw [if_neg (by norm_num), hn]
    simp only [hlt, if_false]
  · rw [if_neg hbla, if_pos rfl]
    simp only [appendListDesc, List.getD_cons_succ, List.getD_cons_zero,
      List.length_cons, List.length_nil]
    rw [if_neg (by norm_num), hn]
    simp only [hlt, if_false]

/-- Witness for C9 at the concrete line `ALLOWLIST 2 my.txt`: the keyword is
matched case-insensitively and the written offset 2 is stored as 1. -/
theorem list_directive_registers_desc_witness :
    processConfigLine "ALLOWLIST 2 my.txt".toList ⟨[], 4⟩ =
      Except.ok ⟨[⟨"my.txt".toList, 1, Role.allow⟩], 4⟩ :=
  list_directive_registers_desc ⟨[], 4⟩ "ALLOWLIST 2 my.txt".toList
    "ALLOWLIST".toList "2".toList "my.txt".toList 2 Role.allow
    (by decide) (by decide) (by decide) (Or.inl ⟨by decide, rfl⟩) (by decide) (by decide)

end Dnshole
